import Mathlib

set_option maxHeartbeats 1000000

/-!
Shallow embedding of `src/pyrcn/layers/_recurrent_layer.py`: the class
`BaseRecurrentLayer` (parameter validation, `fit`, `transform`) and its
concrete subclass `RecurrentLayer` (`_initialize_weight_matrices`).
Machine floats are modelled as rationals, numpy 2-D arrays as lists of
rows, and numpy's `RandomState` as explicit streams of uniform draws and
of permutations together with consumption indices.
-/

/-- Python exceptions raised by the embedded code paths. -/
inductive PyErr where
  | valueError (nm : String)
  | notFittedError
  | attributeError (nm : String)
  | nameError (nm : String)
  | keyError (nm : String)
  | assertionError
deriving DecidableEq

/-- A dense 2-D numpy array, stored as its list of rows. -/
abbrev Mat := List (List ℚ)

/-- `X.shape[1]` of a rectangular 2-D array (0 for an empty array). -/
def ncols (M : Mat) : Nat := (M.head?.map List.length).getD 0

/-- Dot product of two equal-length vectors. -/
def dot (u v : List ℚ) : ℚ := (List.zipWith (fun a b => a * b) u v).sum

/-- `safe_sparse_dot(X, W.T)` (line 122): entry `(i, j)` is the dot product of
row `i` of `X` with row `j` of `W`; the `dense_output` flag only selects the
storage format of the result, not its values. -/
def matMulT (X W : Mat) : Mat := X.map (fun xr => W.map (fun wr => dot xr wr))

/-- numpy broadcasting of a length-`n` bias vector across the rows of an
`[m, n]` matrix (the `+ self.bias_weights_` of line 122). -/
def addBias (M : Mat) (b : List ℚ) : Mat :=
  M.map (fun r => List.zipWith (fun a c => a + c) r b)

/-- Apply an elementwise function to every entry of a matrix. -/
def mapMatrix (f : ℚ → ℚ) (M : Mat) : Mat := M.map (fun r => r.map f)

/-- Number of nonzero entries of a row. -/
def countNonzero (r : List ℚ) : Nat := (r.filter (fun x => x != 0)).length

/-- Weight matrix together with its storage representation: the dense branch of
`_initialize_weight_matrices` builds a plain `np.array`, the sparse branch a
`scipy.sparse.csc_matrix`; here the csc matrix is carried by its dense
denotation plus the `sparse` tag. -/
inductive WeightMat where
  | dense (m : Mat)
  | sparse (m : Mat)
deriving DecidableEq

/-- The numeric content of a weight matrix. -/
def WeightMat.mat : WeightMat → Mat
  | .dense m => m
  | .sparse m => m

/-- Whether the matrix is stored in a scipy sparse format. -/
def WeightMat.isSparse : WeightMat → Bool
  | .dense _ => false
  | .sparse _ => true

/-- The constructor parameters of `BaseRecurrentLayer.__init__` (lines 16-39);
they are stored unvalidated (validation happens only inside `fit`). -/
structure Config where
  n_components : Int
  dense_output : Bool
  input_scaling : ℚ
  k_in : Int
  bias_scaling : ℚ
  activation_function : String
  spectral_radius : ℚ
  k_rec : Int
  bi_directional : Bool
  random_state : Option Int
deriving DecidableEq

/-- The trailing-underscore attributes that `fit` can assign, in assignment
order: `n_features_in_` is set by sklearn's `_validate_data` (line 82, which
records `X.shape[1]` on the instance before returning), `n_components_` by
line 88, and the weight attributes by line 92.  `none` models the attribute
being absent from the instance `__dict__`. -/
structure LayerState where
  n_features_in_ : Option Nat
  n_components_ : Option Int
  input_weights_ : Option WeightMat
  bias_weights_ : Option (List ℚ)
deriving DecidableEq

/-- A freshly constructed instance: no trailing-underscore attribute is set. -/
def initState : LayerState := ⟨none, none, none, none⟩

/-- sklearn's `check_is_fitted(self)` (line 115, external library): the instance
counts as fitted exactly when at least one attribute whose name ends in an
underscore (and does not start with a double underscore) is set on it; for this
class those attributes are the four recorded in `LayerState`, including the
`n_features_in_` that `_validate_data` leaves behind. -/
def isFitted (st : LayerState) : Bool :=
  st.n_features_in_.isSome || st.n_components_.isSome ||
    st.input_weights_.isSome || st.bias_weights_.isSome

/-- Result of `_validate_parameters`: the exception raised (if any) and whether
the `n_components <= n_features` warning was emitted before returning/raising. -/
structure ValidationResult where
  error : Option PyErr
  warned : Bool
deriving DecidableEq

/-- `BaseRecurrentLayer._validate_parameters` (lines 41-58), with the checks in
source order.  `keys` models the key set of the external `ACTIVATIONS` registry
(`pyrcn.activation_functions`, not under `src/`).  The `warned` flag records the
`warnings.warn` of lines 48-50, which fires (once `n_components > 0`) before the
later checks can raise. -/
def validate_parameters (keys : List String) (cfg : Config) (nf : Nat) :
    ValidationResult :=
  if cfg.k_in < 1 ∧ cfg.k_in ≠ -1 then
    ⟨some (.valueError ("k_in must be -1 or greater than 0")), false⟩
  else if cfg.k_in > (nf : Int) then
    ⟨some (.valueError ("k_in must not be larger than n_features")), false⟩
  else if cfg.n_components ≤ 0 then
    ⟨some (.valueError ("n_components must be greater than 0")), false⟩
  else if cfg.activation_function ∉ keys then
    ⟨some (.valueError ("activation function not supported")),
     decide (cfg.n_components ≤ (nf : Int))⟩
  else if cfg.k_rec < 1 ∧ cfg.k_rec ≠ -1 then
    ⟨some (.valueError ("k_rec must be -1 or greater than 0")),
     decide (cfg.n_components ≤ (nf : Int))⟩
  else if cfg.k_rec > cfg.n_components then
    ⟨some (.valueError ("k_in must not be larger than n_components")),
     decide (cfg.n_components ≤ (nf : Int))⟩
  else ⟨none, decide (cfg.n_components ≤ (nf : Int))⟩

/-- Model of numpy's `RandomState`: a stream of uniform draws in `[0, 1)`
consumed by `rand`, a stream of permutations consumed by `permutation`, and
the indices recording how much of each stream has been consumed so far. -/
structure RandomState where
  uni : Nat → ℚ
  perm : Nat → Nat → List Nat
  uidx : Nat
  pidx : Nat

/-- What numpy guarantees of the streams: `rand` draws lie in `[0, 1)` and
`permutation n` returns a permutation of `0 .. n-1`. -/
structure RandomState.Wf (r : RandomState) : Prop where
  uni_nonneg : ∀ i, 0 ≤ r.uni i
  uni_lt_one : ∀ i, r.uni i < 1
  perm_perm : ∀ i n, List.Perm (r.perm i n) (List.range n)

/-- `random_state.rand(k)`: the next `k` uniform draws, in stream order. -/
def RandomState.randVec (r : RandomState) (k : Nat) : List ℚ × RandomState :=
  ((List.range k).map (fun i => r.uni (r.uidx + i)), { r with uidx := r.uidx + k })

/-- `random_state.rand(m, n)`: an `[m, n]` array of uniform draws, filled in
C (row-major) order. -/
def RandomState.randMat (r : RandomState) (m n : Nat) : Mat × RandomState :=
  ((List.range m).map (fun i => (List.range n).map (fun j => r.uni (r.uidx + i * n + j))),
   { r with uidx := r.uidx + m * n })

/-- `random_state.permutation(n)`: the next permutation from the stream. -/
def RandomState.permutation (r : RandomState) (n : Nat) : List Nat × RandomState :=
  (r.perm r.pidx n, { r with pidx := r.pidx + 1 })

/-- sklearn's `check_random_state` (line 138, external library): an int seed
yields a freshly seeded generator depending only on the seed (the numpy seeding
algorithm is external and modelled by `seedFn`), while `None` yields the ambient
global numpy generator `globalRng`. -/
def check_random_state (seedFn : Int → RandomState) (globalRng : RandomState) :
    Option Int → RandomState
  | some s => seedFn s
  | none => globalRng

/-- `np.int32` wraparound semantics for the cast on line 145. -/
def int32wrap (v : Int) : Int := (v + 2 ^ 31) % 2 ^ 32 - 2 ^ 31

/-- The loop of lines 148-152, which fills the COO index arrays `ij`: for each
row `en`, the first `k` entries of a fresh permutation of `range n_features`
become the column positions of row `en`.  The result is the list of
`(row, column)` pairs in the order the loop writes them, aligned with the
upfront-drawn `data_vec`. -/
def ffRowsAux (nf k : Nat) : Nat → Nat → RandomState → List (Nat × Nat) × RandomState
  | 0, _, r => ([], r)
  | fuel + 1, en, r =>
    let pr := r.permutation nf
    let rest := ffRowsAux nf k fuel (en + 1) pr.2
    ((pr.1.take k).map (fun c => (en, c)) ++ rest.1, rest.2)

/-- Entry `(i, j)` of `scipy.sparse.csc_matrix((data, ij), shape)`: the sum of
the data values whose index pair is `(i, j)` (scipy sums duplicates). -/
def cscEntry (ij : List (Nat × Nat)) (data : List ℚ) (i j : Nat) : ℚ :=
  (((ij.zip data).filter (fun p => p.1.1 == i && p.1.2 == j)).map (fun p => p.2)).sum

/-- Dense denotation of `scipy.sparse.csc_matrix((data, ij), shape=(m, n))`. -/
def cscToDense (m n : Nat) (ij : List (Nat × Nat)) (data : List ℚ) : Mat :=
  (List.range m).map (fun i => (List.range n).map (fun j => cscEntry ij data i j))

/-- Lines 142-154 of `RecurrentLayer._initialize_weight_matrices`: generation of
the feedforward weight matrix.  `k_in == -1` gives a dense
`rand(n_components_, n_features) * 2 - 1`; otherwise `data_vec` is drawn
upfront (`rand(nr_entries) * 2 - 1` with `nr_entries = np.int32(n_components_
* k_in)`), the loop of lines 148-152 picks `k_in` column positions per row from
a fresh permutation, and a csc matrix is assembled.  A negative wrapped
`nr_entries` would make `rand` raise, modelled as a `valueError`. -/
def feedforwardStep (cfg : Config) (nc nf : Nat) (r : RandomState) :
    Except PyErr (WeightMat × RandomState) :=
  if cfg.k_in = -1 then
    let mr := r.randMat nc nf
    .ok (.dense (mapMatrix (fun u => 2 * u - 1) mr.1), mr.2)
  else
    let nrE : Int := int32wrap ((nc : Int) * cfg.k_in)
    if nrE < 0 then .error (.valueError ("negative dimensions are not allowed"))
    else
      let dv := r.randVec nrE.toNat
      let data_vec := dv.1.map (fun u => 2 * u - 1)
      let ij := ffRowsAux nf cfg.k_in.toNat nc 0 dv.2
      .ok (.sparse (cscToDense nc nf ij.1 data_vec), ij.2)

/-- `np.amax(np.absolute(we))` (line 188). -/
def maxAbs (we : List ℚ) : ℚ := (we.map (fun x => |x|)).foldr max 0

/-- Line 188 in isolation:
`reservoir_weights_init *= (1. / np.amax(np.absolute(we)))` — the matrix is
scaled by the single factor `1 / max |we|`; `self.spectral_radius` does not
appear in it (the comment on line 158 says the weights are normalized to a
unitary spectral radius).  In actual execution this line is unreachable, see
`initialize_weight_matrices`. -/
def rescaleRecurrent (m : Mat) (we : List ℚ) : Mat :=
  mapMatrix (fun x => x * (1 / maxAbs we)) m

/-- The rescaling formula exactly as the specification states it:
`matrix *= target_spectral_radius / max(|eigenvalue estimates|)`.  Written from
the spec's words, to be compared with `rescaleRecurrent` from the source. -/
def rescaleRecurrentSpec (rho : ℚ) (m : Mat) (we : List ℚ) : Mat :=
  mapMatrix (fun x => x * (rho / maxAbs we)) m

/-- `RecurrentLayer._initialize_weight_matrices` (lines 137-191).  After the
feedforward step, control always enters the recurrent block (lines 156-188):
there is no branch on `spectral_radius`.  Its loop body first reads
`self.k_res` (line 162), an attribute `RecurrentLayer` never defines (its
field is `k_rec`), raising `AttributeError`; the handler
`except ArpackNoConvergence` (line 180) then looks up a name that is never
imported, so Python raises `NameError` while handling the `AttributeError`.
Consequently the function always raises: the rescaling (line 188), the bias
generation (line 190) and the `return` (line 191) are unreachable, and no
recurrent matrix is ever returned (line 191 would return only the feedforward
and bias matrices anyway). -/
def initialize_weight_matrices (seedFn : Int → RandomState) (globalRng : RandomState)
    (cfg : Config) (nc : Int) (nf : Nat) : Except PyErr (WeightMat × List ℚ) :=
  match feedforwardStep cfg nc.toNat nf (check_random_state seedFn globalRng cfg.random_state) with
  | .error e => .error e
  | .ok _ => .error (.nameError ("ArpackNoConvergence"))

/-- `BaseRecurrentLayer.fit` (lines 81-98).  Line 82 (`self._validate_data`) is
external sklearn input validation of a well-formed numeric 2-D array, modelled
as accepting `X`; before returning it records
`self.n_features_in_ = X.shape[1]` on the instance, so that assignment happens
even when `_validate_parameters` (line 86) subsequently raises.  The assignment
`self.n_components_ = self.n_components` (line 88) likewise happens before
weight generation (line 92), so a generation failure leaves both set.  The
result pairs the post-call instance state with the exception raised, if any.
Line 95's `assert` on the feedforward shape is modelled as an
`assertionError`. -/
def fit (keys : List String) (seedFn : Int → RandomState) (globalRng : RandomState)
    (cfg : Config) (st : LayerState) (X : Mat) : LayerState × Option PyErr :=
  match (validate_parameters keys cfg (ncols X)).error with
  | some e => ({ st with n_features_in_ := some (ncols X) }, some e)
  | none =>
    match initialize_weight_matrices seedFn globalRng cfg cfg.n_components (ncols X) with
    | .error e => ({ st with n_features_in_ := some (ncols X), n_components_ := some cfg.n_components }, some e)
    | .ok wb =>
      if ((wb.1.mat.length : Int) = cfg.n_components ∧ ∀ row ∈ wb.1.mat, row.length = ncols X)
      then (⟨some (ncols X), some cfg.n_components, some wb.1, some wb.2⟩, none)
      else ({ st with n_features_in_ := some (ncols X), n_components_ := some cfg.n_components }, some .assertionError)

/-- `BaseRecurrentLayer.transform` (lines 100-124).  Line 113 (`check_array`) is
external sklearn input validation of a well-formed numeric 2-D array, modelled
as accepting `X`.  Then, in source order: `check_is_fitted` (line 115), the
attribute read `self.input_weights_` inside the shape comparison (line 117),
the bias attribute read and the affine map (line 122), and the registry lookup
`ACTIVATIONS[self.activation_function]` applied elementwise (line 123).  The
registry (`pyrcn.activation_functions`, not under `src/`) is passed in as the
partial map `act`. -/
def transform (act : String → Option (ℚ → ℚ)) (cfg : Config) (st : LayerState)
    (X : Mat) : Except PyErr Mat :=
  if isFitted st then
    match st.input_weights_ with
    | none => .error (.attributeError ("input_weights_"))
    | some W =>
      if ncols X ≠ ncols W.mat then
        .error (.valueError ("Impossible to perform projection"))
      else
        match st.bias_weights_ with
        | none => .error (.attributeError ("bias_weights_"))
        | some b =>
          match act cfg.activation_function with
          | none => .error (.keyError cfg.activation_function)
          | some f => .ok (mapMatrix f (addBias (matMulT X W.mat) b))
  else .error .notFittedError

deriving instance DecidableEq for Except

/-- `_initialize_weight_matrices` never returns normally: whichever way the
feedforward step goes, the recurrent block raises. -/
lemma initialize_weight_matrices_isErr (seedFn : Int → RandomState) (g : RandomState)
    (cfg : Config) (nc : Int) (nf : Nat) :
    ∃ e, initialize_weight_matrices seedFn g cfg nc nf = .error e := by
  unfold initialize_weight_matrices
  split <;> simp

/-- `np.int32` is the identity on the representable range. -/
lemma int32wrap_eq (v : Int) (h0 : 0 ≤ v) (h1 : v < 2 ^ 31) : int32wrap v = v := by
  unfold int32wrap; omega

/-- The feedforward generation itself succeeds whenever `k_in` is `-1` or
nonnegative with `n_components * k_in` inside the int32 range. -/
lemma feedforwardStep_isOk (cfg : Config) (nc nf : Nat) (r : RandomState)
    (hk : cfg.k_in = -1 ∨ (0 ≤ cfg.k_in ∧ (nc : Int) * cfg.k_in < 2 ^ 31)) :
    ∃ w, feedforwardStep cfg nc nf r = .ok w := by
  unfold feedforwardStep
  rcases hk with h | ⟨h0, h1⟩
  · simp [h]
  · by_cases hm : cfg.k_in = -1
    · simp [hm]
    · have hge : 0 ≤ (nc : Int) * cfg.k_in := mul_nonneg (Int.natCast_nonneg nc) h0
      have hw : int32wrap ((nc : Int) * cfg.k_in) = (nc : Int) * cfg.k_in :=
        int32wrap_eq _ hge h1
      have hnn : ¬ ((nc : Int) * cfg.k_in < 0) := not_lt.mpr hge
      simp [hm, hw, hnn]

/-- A fit call that passes validation fails during weight generation and leaves
both `n_features_in_` (line 82) and `n_components_` (line 88) assigned on the
instance. -/
lemma fit_gen_failure (keys : List String) (seedFn : Int → RandomState) (g : RandomState)
    (cfg : Config) (st : LayerState) (X : Mat)
    (hv : (validate_parameters keys cfg (ncols X)).error = none) :
    (fit keys seedFn g cfg st X).1 = { st with n_features_in_ := some (ncols X), n_components_ := some cfg.n_components } ∧
    (fit keys seedFn g cfg st X).2.isSome = true := by
  unfold fit
  rw [hv]
  obtain ⟨e, he⟩ := initialize_weight_matrices_isErr seedFn g cfg cfg.n_components (ncols X)
  rw [he]
  simp

/-- A fit call that fails validation raises after `_validate_data` has already
recorded `n_features_in_` but before any other assignment. -/
lemma fit_validation_failure (keys : List String) (seedFn : Int → RandomState)
    (g : RandomState) (cfg : Config) (st : LayerState) (X : Mat) (e : PyErr)
    (hv : (validate_parameters keys cfg (ncols X)).error = some e) :
    fit keys seedFn g cfg st X =
      ({ st with n_features_in_ := some (ncols X) }, some e) := by
  unfold fit
  rw [hv]

/-- When validation passes and the feedforward generation stays in range, `fit`
raises exactly the `NameError` from the recurrent block's `except` clause. -/
lemma fit_nameError (keys : List String) (seedFn : Int → RandomState) (g : RandomState)
    (cfg : Config) (st : LayerState) (X : Mat)
    (hv : (validate_parameters keys cfg (ncols X)).error = none)
    (hk : cfg.k_in = -1 ∨ (0 ≤ cfg.k_in ∧ (cfg.n_components.toNat : Int) * cfg.k_in < 2 ^ 31)) :
    fit keys seedFn g cfg st X =
      ({ st with n_features_in_ := some (ncols X), n_components_ := some cfg.n_components },
       some (PyErr.nameError ("ArpackNoConvergence"))) := by
  unfold fit
  rw [hv]
  obtain ⟨w, hw⟩ :=
    feedforwardStep_isOk cfg cfg.n_components.toNat (ncols X)
      (check_random_state seedFn g cfg.random_state) hk
  have hi : initialize_weight_matrices seedFn g cfg cfg.n_components (ncols X) =
      .error (PyErr.nameError ("ArpackNoConvergence")) := by
    unfold initialize_weight_matrices
    rw [hw]
  rw [hi]

/-- A concrete well-formed random source: every uniform draw is 1/4 and every
permutation of `range n` is the identity one. -/
def rngW : RandomState := ⟨fun _ => 1 / 4, fun _ n => List.range n, 0, 0⟩

/-- A concrete seeding function for witnesses. -/
def seedFnW : Int → RandomState := fun _ => rngW

/-- `rngW` satisfies the numpy stream guarantees. -/
lemma rngW_wf : rngW.Wf :=
  ⟨fun _ => by norm_num [rngW], fun _ => by norm_num [rngW],
   fun _ _ => List.Perm.refl _⟩

/-- C9: given a configuration and the feature count observed at fit time,
`_validate_parameters` raises if and only if one of the listed conditions
holds (`k_in` not `-1` and below 1, `k_in` above `n_features`,
`n_components <= 0`, unknown activation name, or `k_rec` not `-1` and out of
`[1, n_components]`), and when it does not raise but
`n_components <= n_features` it has emitted the warning rather than an
error. -/
theorem C9_validate_parameters_spec (keys : List String) (cfg : Config) (nf : Nat) :
    (((validate_parameters keys cfg nf).error.isSome) ↔
      ((cfg.k_in ≠ -1 ∧ cfg.k_in < 1) ∨ cfg.k_in > (nf : Int) ∨ cfg.n_components ≤ 0 ∨
        cfg.activation_function ∉ keys ∨
        (cfg.k_rec ≠ -1 ∧ (cfg.k_rec < 1 ∨ cfg.k_rec > cfg.n_components))))
  ∧ ((validate_parameters keys cfg nf).error = none → cfg.n_components ≤ (nf : Int) →
      (validate_parameters keys cfg nf).warned = true) := by
  unfold validate_parameters
  split_ifs with h1 h2 h3 h4 h5 h6 <;>
    refine ⟨?_, ?_⟩ <;> simp_all <;> try omega

/-- Configuration used by the C9 witness: valid, with n_components below the
feature count so the warning fires. -/
def cfgC9w : Config := ⟨2, true, 1, 1, 0, "tanh", 0, 1, false, none⟩

/-- C9 witness: at a concrete valid configuration with
`n_components = 2 <= n_features = 3`, no error is raised and the warning was
emitted. -/
theorem C9_validate_parameters_spec_witness :
    (validate_parameters (["tanh"]) cfgC9w 3).warned = true :=
  (C9_validate_parameters_spec (["tanh"]) cfgC9w 3).2 (by decide) (by decide)

/-- Configuration with the class default `spectral_radius = 0`, otherwise
valid for a 2-feature input. -/
def cfgC2 : Config := ⟨2, true, 1, 1, 0, "tanh", 0, 1, false, some 7⟩

/-- C2 counterexample: with `spectral_radius = 0` and an otherwise valid
configuration, `fit` does not take any skip branch: it still enters the
recurrent generation/estimation block of lines 156-188, whose undefined names
make it raise, and no weight matrix is left behind — instead of leaving the
recurrent matrix unchanged from raw generation as the claim states. -/
theorem C2_cex :
    cfgC2.spectral_radius = 0 ∧
    (fit (["tanh"]) seedFnW rngW cfgC2 initState [[0, 0], [0, 0]]).2 =
      some (PyErr.nameError ("ArpackNoConvergence")) ∧
    (fit (["tanh"]) seedFnW rngW cfgC2 initState [[0, 0], [0, 0]]).1.input_weights_ = none := by
  decide

/-- C2 (amended): `_initialize_weight_matrices` has no branch on
`spectral_radius` at all: for every configuration with `spectral_radius = 0`
that passes validation (and whose feedforward generation stays in the int32
range), `fit` unconditionally enters the recurrent block and raises the
`NameError` caused by its undefined names, so no recurrent matrix — skipped or
otherwise — is ever produced. -/
theorem C2_no_skip_branch (keys : List String) (seedFn : Int → RandomState)
    (g : RandomState) (cfg : Config) (st : LayerState) (X : Mat)
    (_hrho : cfg.spectral_radius = 0)
    (hv : (validate_parameters keys cfg (ncols X)).error = none)
    (hk : cfg.k_in = -1 ∨ (0 ≤ cfg.k_in ∧ (cfg.n_components.toNat : Int) * cfg.k_in < 2 ^ 31)) :
    fit keys seedFn g cfg st X =
      ({ st with n_features_in_ := some (ncols X), n_components_ := some cfg.n_components },
       some (PyErr.nameError ("ArpackNoConvergence"))) :=
  fit_nameError keys seedFn g cfg st X hv hk

/-- C2 witness: the amended statement evaluated at a concrete configuration. -/
theorem C2_no_skip_branch_witness :
    fit (["tanh"]) seedFnW rngW cfgC2 initState [[0, 0], [0, 0]] =
      (⟨some 2, some 2, none, none⟩, some (PyErr.nameError ("ArpackNoConvergence"))) :=
  C2_no_skip_branch (["tanh"]) seedFnW rngW cfgC2 initState [[0, 0], [0, 0]]
    (by decide) (by decide) (by decide)

/-- C3 counterexample: line 188 rescales by the factor `1 / max |we|`, not by
`spectral_radius / max |we|`: at `M = [[2]]`, estimates `we = [2]` and target
`rho = 3`, the code's rescaling yields `[[1]]` while the spec formula yields
`[[3]]`, and the two differ. -/
theorem C3_cex :
    rescaleRecurrent [[2]] [2] = [[1]] ∧
    rescaleRecurrentSpec 3 [[2]] [2] = [[3]] ∧
    rescaleRecurrent [[2]] [2] ≠ rescaleRecurrentSpec 3 [[2]] [2] := by
  have h : maxAbs [2] = 2 := by norm_num [maxAbs]
  refine ⟨?_, ?_, ?_⟩ <;> simp [rescaleRecurrent, rescaleRecurrentSpec, mapMatrix, h] <;>
    norm_num

/-- C3 (amended): the rescaling of line 188 multiplies every entry by the
single scalar `1 / max |we|` — it coincides with the spec's formula only for
target spectral radius 1, independently of the configured `spectral_radius`
(and, per `initialize_weight_matrices`, the line is unreachable anyway). -/
theorem C3_rescale_unit (m : Mat) (we : List ℚ) :
    rescaleRecurrent m we = rescaleRecurrentSpec 1 m we := rfl

/-- Valid dense configuration for the C4 run. -/
def cfgC4 : Config := ⟨3, true, 1, -1, 0, "tanh", 1 / 2, -1, false, some 1⟩

/-- C4: already the first attempt of the retry loop raises out of `fit`: the
loop body reads the undefined attribute `k_res` and the `except` clause's
undefined name `ArpackNoConvergence` turns the failure into a `NameError`
that propagates to the caller — no 50-attempt retry and no warning-only
degradation ever happens. -/
theorem C4_first_attempt_raises :
    (fit (["tanh"]) seedFnW rngW cfgC4 initState [[1, 0], [0, 1], [0, 0]]).2 =
      some (PyErr.nameError ("ArpackNoConvergence")) := by decide

/-- Valid dense configuration for the C5 run. -/
def cfgC5 : Config := ⟨2, true, 1, -1, 0, "tanh", 1, -1, false, some 3⟩

/-- C5: no `fit` call ever succeeds, so no layer state holding the three weight
matrices is ever reached: at a concrete valid configuration `fit` raises and
leaves neither feedforward nor bias weights (and `_initialize_weight_matrices`
line 191 would discard the recurrent matrix even if it were reached). -/
theorem C5_no_fitted_state :
    (fit (["tanh"]) seedFnW rngW cfgC5 initState [[1, 2], [3, 4]]).2.isSome = true ∧
    (fit (["tanh"]) seedFnW rngW cfgC5 initState [[1, 2], [3, 4]]).1.input_weights_ = none ∧
    (fit (["tanh"]) seedFnW rngW cfgC5 initState [[1, 2], [3, 4]]).1.bias_weights_ = none := by
  decide

/-- Valid configuration for the C6 runs. -/
def cfgC6 : Config := ⟨2, true, 1, 1, 0, "tanh", 0, 1, false, some 5⟩

/-- Invalid configuration (k_in exceeds the 2 observed features) for the C6
witness. -/
def cfgC6bad : Config := ⟨2, true, 1, 5, 0, "tanh", 0, 1, false, none⟩

/-- C6 counterexample: neither failure mode leaves the instance as it was.  A
concrete `fit` call that passes validation and fails during weight generation
leaves a state different from the one before the call (`n_features_in_` and
`n_components_` are now assigned), and a concrete `fit` call that fails during
parameter validation also leaves a changed state (`n_features_in_` was recorded
by `_validate_data` before the raise) — contradicting the claim that a failed
`fit` leaves the observable state exactly as it was. -/
theorem C6_cex :
    (validate_parameters (["tanh"]) cfgC6 2).error = none ∧
    (fit (["tanh"]) seedFnW rngW cfgC6 initState [[0, 0], [0, 0]]).2.isSome = true ∧
    (fit (["tanh"]) seedFnW rngW cfgC6 initState [[0, 0], [0, 0]]).1 ≠ initState ∧
    (validate_parameters (["tanh"]) cfgC6bad 2).error.isSome = true ∧
    (fit (["tanh"]) seedFnW rngW cfgC6bad initState [[0, 0]]).2.isSome = true ∧
    (fit (["tanh"]) seedFnW rngW cfgC6bad initState [[0, 0]]).1 ≠ initState := by decide

/-- C6 (amended): no failed `fit` call leaves the instance in its prior state.
A `fit` call that fails during parameter validation has already had
`n_features_in_ = X.shape[1]` recorded on the instance by `_validate_data`
(line 82); a `fit` call that fails during weight generation has additionally
executed the line-88 assignment of `n_components_`.  Either way the leftover
trailing-underscore attributes make `check_is_fitted` treat the instance as
fitted; only the weight attributes themselves are never partially assigned. -/
theorem C6_failure_states (keys : List String) (seedFn : Int → RandomState)
    (g : RandomState) (cfg : Config) (st : LayerState) (X : Mat) :
    (∀ e, (validate_parameters keys cfg (ncols X)).error = some e →
      fit keys seedFn g cfg st X =
        ({ st with n_features_in_ := some (ncols X) }, some e)) ∧
    ((validate_parameters keys cfg (ncols X)).error = none →
      (fit keys seedFn g cfg st X).1 = { st with n_features_in_ := some (ncols X), n_components_ := some cfg.n_components } ∧
      (fit keys seedFn g cfg st X).2.isSome = true) :=
  ⟨fun e he => fit_validation_failure keys seedFn g cfg st X e he,
   fun hv => fit_gen_failure keys seedFn g cfg st X hv⟩

/-- C6 witness: both failure modes evaluated concretely — a validation failure
returns the state with `n_features_in_` recorded, a generation failure the
state with `n_features_in_` and `n_components_` assigned. -/
theorem C6_failure_states_witness :
    fit (["tanh"]) seedFnW rngW cfgC6bad initState [[0, 0]] =
      (⟨some 2, none, none, none⟩,
       some (PyErr.valueError ("k_in must not be larger than n_features"))) ∧
    ((fit (["tanh"]) seedFnW rngW cfgC6 initState [[0, 0], [0, 0]]).1 =
      ⟨some 2, some cfgC6.n_components, none, none⟩ ∧
     (fit (["tanh"]) seedFnW rngW cfgC6 initState [[0, 0], [0, 0]]).2.isSome = true) :=
  ⟨(C6_failure_states (["tanh"]) seedFnW rngW cfgC6bad initState [[0, 0]]).1 _ (by decide),
   (C6_failure_states (["tanh"]) seedFnW rngW cfgC6 initState [[0, 0], [0, 0]]).2 (by decide)⟩

/-- Valid sparse configuration with a fixed integer seed for the C8 run. -/
def cfgC8 : Config := ⟨2, true, 1, 2, 0, "tanh", 1, 2, false, some 42⟩

/-- C8: with a fixed integer random_state, `fit` raises before returning and
stores no weight matrix at all, so no run of `fit` ever produces the weight
matrices whose bit-identity the claim asserts. -/
theorem C8_seeded_fit_no_matrices :
    (fit (["tanh"]) seedFnW rngW cfgC8 initState [[1, 0], [0, 1]]).1.input_weights_ = none ∧
    (fit (["tanh"]) seedFnW rngW cfgC8 initState [[1, 0], [0, 1]]).1.bias_weights_ = none ∧
    (fit (["tanh"]) seedFnW rngW cfgC8 initState [[1, 0], [0, 1]]).2 =
      some (PyErr.nameError ("ArpackNoConvergence")) := by decide

/-- Valid configuration for the C10 runs. -/
def cfgC10 : Config := ⟨2, true, 1, 1, 0, "tanh", 0, 1, false, some 9⟩

/-- C10 counterexample: an instance whose only `fit` call failed during weight
generation is still "before a successful fit", yet `transform` on it does not
raise `NotFittedError`: `check_is_fitted` is satisfied by the leftover
`n_features_in_`/`n_components_`, and the attribute read of `input_weights_`
on line 117 raises `AttributeError` instead. -/
theorem C10_cex :
    (fit (["tanh"]) seedFnW rngW cfgC10 initState [[0, 0], [0, 0]]).2.isSome = true ∧
    transform (fun _ => some (fun x => x)) cfgC10
        (fit (["tanh"]) seedFnW rngW cfgC10 initState [[0, 0], [0, 0]]).1 [[0, 0], [0, 0]] =
      .error (PyErr.attributeError ("input_weights_")) ∧
    PyErr.attributeError ("input_weights_") ≠ PyErr.notFittedError := by decide

/-- C10 (amended): on an instance on which `fit` has never been called (no
trailing-underscore attribute set), `transform` always fails with
`NotFittedError`, for every input and every activation registry; but after any
single failed `fit` call on a fresh instance — validation failure or generation
failure, and every `fit` fails — the attributes assigned before the raise
(`n_features_in_`, and for generation failures also `n_components_`) satisfy
`check_is_fitted`, and `transform` instead fails with `AttributeError` on
`input_weights_`. -/
theorem C10_unfitted_transform (act : String → Option (ℚ → ℚ)) (cfg : Config) (X : Mat) :
    transform act cfg initState X = .error PyErr.notFittedError ∧
    (∀ (keys : List String) (seedFn : Int → RandomState) (g : RandomState)
      (cfg' : Config) (Y : Mat),
      transform act cfg (fit keys seedFn g cfg' initState Y).1 X =
        .error (PyErr.attributeError ("input_weights_"))) := by
  refine ⟨rfl, ?_⟩
  intro keys seedFn g cfg' Y
  cases hv : (validate_parameters keys cfg' (ncols Y)).error with
  | some e =>
    rw [fit_validation_failure keys seedFn g cfg' initState Y e hv]
    rfl
  | none =>
    rw [(fit_gen_failure keys seedFn g cfg' initState Y hv).1]
    rfl

/-- C1: on a fitted state holding feedforward weights of shape
[n_components, n_features] and a bias of length n_components, `transform`
applied to any (non-empty, rectangular) input with n_features columns returns
exactly the elementwise activation of `X · W^T + bias` (bias broadcast across
rows), and the result has shape [X.rows, n_components]. -/
theorem C1_transform_spec (act : String → Option (ℚ → ℚ)) (f : ℚ → ℚ) (cfg : Config)
    (st : LayerState) (W : WeightMat) (b : List ℚ) (X : Mat) (nc nf : Nat)
    (hact : act cfg.activation_function = some f)
    (hW : st.input_weights_ = some W)
    (hb : st.bias_weights_ = some b)
    (hWr : W.mat.length = nc)
    (hWc : ∀ row ∈ W.mat, row.length = nf)
    (hbl : b.length = nc)
    (hXc : ∀ row ∈ X, row.length = nf)
    (hX0 : X ≠ [])
    (hnc : 0 < nc) :
    transform act cfg st X = .ok (mapMatrix f (addBias (matMulT X W.mat) b)) ∧
    (mapMatrix f (addBias (matMulT X W.mat) b)).length = X.length ∧
    (∀ row ∈ mapMatrix f (addBias (matMulT X W.mat) b), row.length = nc) := by
  have hf : isFitted st = true := by simp [isFitted, hW]
  have hncX : ncols X = nf := by
    cases X with
    | nil => exact absurd rfl hX0
    | cons x xs => simpa [ncols] using hXc x (by simp)
  have hWm : ncols W.mat = nf := by
    cases hcW : W.mat with
    | nil => rw [hcW] at hWr; simp at hWr; omega
    | cons w ws => rw [hcW] at hWc; simpa [ncols] using hWc w (by simp)
  refine ⟨?_, ?_, ?_⟩
  · simp [transform, hf, hW, hncX, hWm, hb, hact]
  · simp [mapMatrix, addBias, matMulT]
  · intro row hrow
    simp only [mapMatrix, List.mem_map] at hrow
    obtain ⟨a, ha, rfl⟩ := hrow
    simp only [addBias, List.mem_map] at ha
    obtain ⟨r0, hr0, rfl⟩ := ha
    simp only [matMulT, List.mem_map] at hr0
    obtain ⟨xr, hxr, rfl⟩ := hr0
    simp [List.length_zipWith, hWr, hbl]

/-- Configuration for the C1 witness. -/
def cfgC1 : Config := ⟨2, true, 1, 2, 0, "tanh", 0, 2, false, none⟩

/-- Identity feedforward weights for the C1 witness. -/
def WC1 : WeightMat := .dense [[1, 0], [0, 1]]

/-- A hand-fitted layer state for the C1 witness. -/
def stC1 : LayerState := ⟨some 2, some 2, some WC1, some [0, 0]⟩

/-- C1 witness: the theorem evaluated on a concrete fitted state and input. -/
theorem C1_transform_spec_witness :
    transform (fun _ => some (fun x => x)) cfgC1 stC1 [[1, 2]] =
      .ok (mapMatrix (fun x => x) (addBias (matMulT [[1, 2]] WC1.mat) [0, 0])) ∧
    (mapMatrix (fun x => x) (addBias (matMulT [[1, 2]] WC1.mat) [0, 0])).length = 1 ∧
    (∀ row ∈ mapMatrix (fun x => x) (addBias (matMulT [[1, 2]] WC1.mat) [0, 0]),
      row.length = 2) :=
  C1_transform_spec (fun _ => some (fun x => x)) (fun x => x) cfgC1 stC1 WC1 [0, 0]
    [[1, 2]] 2 2 rfl rfl rfl rfl (by decide) rfl (by decide) (by simp) (by decide)

lemma ffRowsAux_snd (nf k : Nat) :
    ∀ (fuel en : Nat) (r : RandomState),
      (ffRowsAux nf k fuel en r).2 = { r with pidx := r.pidx + fuel } := by
  intro fuel
  induction fuel with
  | zero => intro en r; cases r; simp [ffRowsAux]
  | succ n ih =>
    intro en r
    obtain ⟨u, p, ui, pi⟩ := r
    simp only [ffRowsAux, RandomState.permutation]
    rw [ih]
    simp [Nat.add_assoc, Nat.add_comm, Nat.add_left_comm]

lemma ffRowsAux_fst (nf k : Nat) :
    ∀ (fuel en : Nat) (r : RandomState),
      (ffRowsAux nf k fuel en r).1 =
        (List.range fuel).flatMap
          (fun t => ((r.perm (r.pidx + t) nf).take k).map (fun c => (en + t, c))) := by
  intro fuel
  induction fuel with
  | zero => intro en r; simp [ffRowsAux]
  | succ n ih =>
    intro en r
    simp only [ffRowsAux, RandomState.permutation]
    rw [ih]
    rw [List.range_succ_eq_map]
    simp only [List.flatMap_cons, List.flatMap_map]
    have h1 : ∀ t, r.pidx + 1 + t = r.pidx + (t + 1) := by omega
    have h2 : ∀ t, en + 1 + t = en + (t + 1) := by omega
    simp [h1, h2, Nat.succ_eq_add_one, Function.comp]

lemma zip_take_self {α β : Type} (A : List α) :
    ∀ (d : List β), A.zip (d.take A.length) = A.zip d := by
  induction A with
  | nil => intro d; simp
  | cons a as ih =>
    intro d
    cases d with
    | nil => simp
    | cons x xs => simp [List.take_succ_cons, List.zip_cons_cons, ih]

lemma zip_append_split {α β : Type} (A B : List α) (d : List β) (h : A.length ≤ d.length) :
    (A ++ B).zip d = A.zip d ++ B.zip (d.drop A.length) := by
  conv_lhs => rw [← List.take_append_drop A.length d]
  rw [List.zip_append (by simp [List.length_take]; omega)]
  rw [zip_take_self]

lemma length_flatMap_rows (P : Nat → List Nat) (k m : Nat) (hP : ∀ t, (P t).length = k) :
    ((List.range m).flatMap (fun t => (P t).map (fun c => (t, c)))).length = m * k := by
  rw [List.length_flatMap]
  have h : (List.map (List.length ∘ fun t => (P t).map (fun c => (t, c))) (List.range m)) =
      List.replicate m k := by
    rw [List.eq_replicate_iff]
    constructor
    · simp
    · intro b hb
      simp only [List.mem_map, Function.comp] at hb
      obtain ⟨t, _, rfl⟩ := hb
      simp [hP t]
  rw [h, List.sum_replicate, smul_eq_mul]

lemma zip_flatMap_filter_row (P : Nat → List Nat) (k : Nat) :
    ∀ (m : Nat) (data : List ℚ) (i : Nat), i < m → (∀ t, (P t).length = k) →
      m * k ≤ data.length →
      (((List.range m).flatMap (fun t => (P t).map (fun c => (t, c)))).zip data).filter
          (fun p => p.1.1 == i) =
        ((P i).map (fun c => (i, c))).zip (data.drop (i * k)) := by
  intro m
  induction m with
  | zero => intro data i hi _ _; omega
  | succ n ih =>
    intro data i hi hP hlen
    rw [List.range_succ, List.flatMap_append]
    rw [zip_append_split _ _ data
      (by rw [length_flatMap_rows P k n hP]; nlinarith)]
    rw [List.filter_append, length_flatMap_rows P k n hP]
    simp only [List.flatMap_cons, List.flatMap_nil, List.append_nil]
    rcases Nat.lt_or_ge i n with hin | hin
    · rw [ih data i hin hP (by nlinarith)]
      have hnil : ((((P n).map (fun c => (n, c))).zip (data.drop (n * k))).filter
          (fun p => p.1.1 == i)) = [] := by
        rw [List.filter_eq_nil_iff]
        intro p hp
        have h1 := (List.of_mem_zip hp).1
        simp only [List.mem_map] at h1
        obtain ⟨c, _, hc⟩ := h1
        have : p.1.1 = n := by rw [← hc]
        simp [this]
        omega
      rw [hnil, List.append_nil]
    · have hieq : i = n := by omega
      subst hieq
      have hnil : ((((List.range i).flatMap (fun t => (P t).map (fun c => (t, c)))).zip
          data).filter (fun p => p.1.1 == i)) = [] := by
        rw [List.filter_eq_nil_iff]
        intro p hp
        have h1 := (List.of_mem_zip hp).1
        simp only [List.mem_flatMap, List.mem_map] at h1
        obtain ⟨t, ht, c, _, hc⟩ := h1
        have htn : t < i := List.mem_range.mp ht
        have : p.1.1 = t := by rw [← hc]
        simp [this]
        omega
      rw [hnil, List.nil_append]
      rw [List.filter_eq_self.mpr]
      intro p hp
      have h1 := (List.of_mem_zip hp).1
      simp only [List.mem_map] at h1
      obtain ⟨c, _, hc⟩ := h1
      have : p.1.1 = i := by rw [← hc]
      simp [this]

lemma row_zip_filter_col_not_mem (i j : Nat) :
    ∀ (pos : List Nat) (vals : List ℚ), j ∉ pos →
      ((pos.map (fun c => (i, c))).zip vals).filter (fun p => p.1.2 == j) = [] := by
  intro pos
  induction pos with
  | nil => intro vals _; simp
  | cons c cs ih =>
    intro vals h
    cases vals with
    | nil => simp
    | cons v vs =>
      simp only [List.map_cons, List.zip_cons_cons, List.filter_cons]
      have hcj : (c == j) = false := by
        simp only [List.mem_cons, not_or] at h
        rw [beq_eq_false_iff_ne]
        exact fun hc => h.1 hc.symm
      simp only [hcj, Bool.false_eq_true, if_false, cond_false]
      exact ih vs (by simp only [List.mem_cons, not_or] at h; exact h.2)

lemma row_zip_filter_col_mem (i j : Nat) :
    ∀ (pos : List Nat) (vals : List ℚ), pos.Nodup → j ∈ pos → pos.length ≤ vals.length →
      ∃ v ∈ vals,
        ((pos.map (fun c => (i, c))).zip vals).filter (fun p => p.1.2 == j) = [((i, j), v)] := by
  intro pos
  induction pos with
  | nil => intro vals _ h _; simp at h
  | cons c cs ih =>
    intro vals hnd hj hlen
    cases vals with
    | nil => simp at hlen
    | cons v vs =>
      simp only [List.map_cons, List.zip_cons_cons, List.filter_cons]
      by_cases hcj : c = j
      · subst hcj
        have hnj : c ∉ cs := (List.nodup_cons.mp hnd).1
        refine ⟨v, by simp, ?_⟩
        simp only [beq_self_eq_true, if_true, cond_true]
        rw [row_zip_filter_col_not_mem i c cs vs hnj]
      · have hj' : j ∈ cs := by
          rcases List.mem_cons.mp hj with h | h
          · exact absurd h.symm hcj
          · exact h
        obtain ⟨v', hv', heq⟩ := ih vs (List.nodup_cons.mp hnd).2 hj'
          (by simpa using Nat.le_of_succ_le_succ hlen)
        refine ⟨v', by simp [hv'], ?_⟩
        have hcj' : (c == j) = false := by simp [hcj]
        simp only [hcj', Bool.false_eq_true, if_false, cond_false]
        exact heq

lemma cscEntry_not_mem (P : Nat → List Nat) (k m : Nat) (data : List ℚ) (i j : Nat)
    (hi : i < m) (hP : ∀ t, (P t).length = k) (hlen : m * k ≤ data.length)
    (hj : j ∉ P i) :
    cscEntry ((List.range m).flatMap (fun t => (P t).map (fun c => (t, c)))) data i j = 0 := by
  unfold cscEntry
  rw [List.filter_congr (fun p _ => by rw [Bool.and_comm])]
  rw [← List.filter_filter]
  rw [zip_flatMap_filter_row P k m data i hi hP hlen]
  rw [row_zip_filter_col_not_mem i j (P i) (data.drop (i * k)) hj]
  simp

lemma cscEntry_mem (P : Nat → List Nat) (k m : Nat) (data : List ℚ) (i j : Nat)
    (hi : i < m) (hP : ∀ t, (P t).length = k) (hlen : m * k ≤ data.length)
    (hnd : (P i).Nodup) (hj : j ∈ P i) :
    ∃ v ∈ data,
      cscEntry ((List.range m).flatMap (fun t => (P t).map (fun c => (t, c)))) data i j = v := by
  unfold cscEntry
  rw [List.filter_congr (fun p _ => by rw [Bool.and_comm])]
  rw [← List.filter_filter]
  rw [zip_flatMap_filter_row P k m data i hi hP hlen]
  have hl : (P i).length ≤ (data.drop (i * k)).length := by
    rw [hP i, List.length_drop]
    have h2 : (i + 1) * k ≤ m * k := Nat.mul_le_mul_right k (Nat.succ_le_of_lt hi)
    rw [Nat.succ_mul] at h2
    omega
  obtain ⟨v, hv, heq⟩ := row_zip_filter_col_mem i j (P i) (data.drop (i * k)) hnd hj hl
  refine ⟨v, List.drop_subset _ _ hv, ?_⟩
  rw [heq]
  simp

lemma getD_range_map {α : Type} (f : Nat → α) (m i : Nat) (d : α) (hi : i < m) :
    ((List.range m).map f).getD i d = f i := by
  rw [List.getD_eq_getElem _ _ (by simpa using hi)]
  simp

lemma cscRow_spec (P : Nat → List Nat) (k nc nf : Nat) (data : List ℚ) (i : Nat)
    (hi : i < nc) (hP : ∀ t, (P t).length = k) (hnd : ∀ t, (P t).Nodup)
    (hsub : ∀ t, ∀ j ∈ P t, j < nf)
    (hdlen : data.length = nc * k)
    (hvals : ∀ v ∈ data, -1 ≤ v ∧ v < 1 ∧ v ≠ 0) :
    ((cscToDense nc nf ((List.range nc).flatMap (fun t => (P t).map (fun c => (t, c)))) data).getD
        i []).length = nf ∧
    countNonzero ((cscToDense nc nf
        ((List.range nc).flatMap (fun t => (P t).map (fun c => (t, c)))) data).getD i []) = k ∧
    (∀ j, j < nf →
      ((((cscToDense nc nf ((List.range nc).flatMap (fun t => (P t).map (fun c => (t, c))))
          data).getD i []).getD j 0 ≠ 0) ↔ j ∈ P i)) ∧
    (∀ j, j < nf →
      -1 ≤ ((cscToDense nc nf ((List.range nc).flatMap (fun t => (P t).map (fun c => (t, c))))
          data).getD i []).getD j 0 ∧
      ((cscToDense nc nf ((List.range nc).flatMap (fun t => (P t).map (fun c => (t, c))))
          data).getD i []).getD j 0 < 1) := by
  have hlen : nc * k ≤ data.length := le_of_eq hdlen.symm
  have hrow : (cscToDense nc nf
      ((List.range nc).flatMap (fun t => (P t).map (fun c => (t, c)))) data).getD i [] =
      (List.range nf).map (fun j =>
        cscEntry ((List.range nc).flatMap (fun t => (P t).map (fun c => (t, c)))) data i j) := by
    unfold cscToDense
    exact getD_range_map _ _ _ _ hi
  have hentry : ∀ j, j < nf → ((cscToDense nc nf
      ((List.range nc).flatMap (fun t => (P t).map (fun c => (t, c)))) data).getD i []).getD j 0 =
      cscEntry ((List.range nc).flatMap (fun t => (P t).map (fun c => (t, c)))) data i j := by
    intro j hj
    rw [hrow]
    exact getD_range_map _ _ _ _ hj
  have hiff : ∀ j, j < nf →
      ((cscEntry ((List.range nc).flatMap (fun t => (P t).map (fun c => (t, c)))) data i j ≠ 0) ↔
        j ∈ P i) := by
    intro j hj
    constructor
    · intro hne
      by_contra hmem
      exact hne (cscEntry_not_mem P k nc data i j hi hP hlen hmem)
    · intro hmem
      obtain ⟨v, hv, heq⟩ := cscEntry_mem P k nc data i j hi hP hlen (hnd i) hmem
      rw [heq]
      exact (hvals v hv).2.2
  refine ⟨?_, ?_, ?_, ?_⟩
  · rw [hrow]; simp
  · rw [hrow]
    unfold countNonzero
    rw [← List.countP_eq_length_filter, List.countP_map]
    rw [List.countP_congr (q := fun j => decide (j ∈ P i)) ?_]
    · rw [List.countP_eq_length_filter]
      have hperm : List.Perm ((List.range nf).filter (fun j => decide (j ∈ P i))) (P i) := by
        rw [List.perm_ext_iff_of_nodup ((List.nodup_range nf).filter _) (hnd i)]
        intro a
        simp only [List.mem_filter, List.mem_range, decide_eq_true_iff]
        exact ⟨fun h => h.2, fun h => ⟨hsub i a h, h⟩⟩
      rw [hperm.length_eq, hP i]
    · intro j hj
      simp only [Function.comp, bne_iff_ne, decide_eq_true_iff]
      exact hiff j (List.mem_range.mp hj)
  · intro j hj
    rw [hentry j hj]
    exact hiff j hj
  · intro j hj
    rw [hentry j hj]
    by_cases hmem : j ∈ P i
    · obtain ⟨v, hv, heq⟩ := cscEntry_mem P k nc data i j hi hP hlen (hnd i) hmem
      rw [heq]
      exact ⟨(hvals v hv).1, (hvals v hv).2.1⟩
    · rw [cscEntry_not_mem P k nc data i j hi hP hlen hmem]
      norm_num

/-- C7: feedforward-weight generation (lines 142-154).  For `k_in = -1` the
matrix is dense with every entry of the form `2u - 1` for a uniform draw `u`,
hence in `[-1, 1)`.  For an integer `1 <= k_in <= n_features` (with
`n_components * k_in` in int32 range, draws never exactly `1/2`), the matrix
is sparse and every one of its `n_components` rows has exactly `k_in` nonzero
entries, located exactly at the pairwise-distinct first `k_in` positions of
that row's fresh permutation of `range n_features`, with all entries in
`[-1, 1)`. -/
theorem C7_feedforward_generation (cfg : Config) (nc nf : Nat) (r : RandomState)
    (hwf : r.Wf) (hnz : ∀ t, r.uni t ≠ 1 / 2) :
    (cfg.k_in = -1 →
      ∃ M r', feedforwardStep cfg nc nf r = .ok (.dense M, r') ∧
        M.length = nc ∧ (∀ row ∈ M, row.length = nf) ∧
        (∀ row ∈ M, ∀ x ∈ row, -1 ≤ x ∧ x < 1)) ∧
    (∀ k : Nat, cfg.k_in = (k : Int) → 1 ≤ k → k ≤ nf → (nc : Int) * k < 2 ^ 31 →
      ∃ M r', feedforwardStep cfg nc nf r = .ok (.sparse M, r') ∧
        M.length = nc ∧ (∀ row ∈ M, row.length = nf) ∧
        (∀ i, i < nc →
          countNonzero (M.getD i []) = k ∧
          ((r.perm (r.pidx + i) nf).take k).Nodup ∧
          (∀ j ∈ (r.perm (r.pidx + i) nf).take k, j < nf) ∧
          ((r.perm (r.pidx + i) nf).take k).length = k ∧
          (∀ j, j < nf →
            (((M.getD i []).getD j 0 ≠ 0) ↔ j ∈ (r.perm (r.pidx + i) nf).take k)) ∧
          (∀ j, j < nf → -1 ≤ (M.getD i []).getD j 0 ∧ (M.getD i []).getD j 0 < 1))) := by
  have hubound : ∀ s, -1 ≤ 2 * r.uni s - 1 ∧ 2 * r.uni s - 1 < 1 ∧ 2 * r.uni s - 1 ≠ 0 := by
    intro s
    have h0 := hwf.uni_nonneg s
    have h1 := hwf.uni_lt_one s
    have h2 := hnz s
    refine ⟨by linarith, by linarith, ?_⟩
    intro hz
    apply h2
    linarith
  constructor
  · -- dense branch
    intro hk
    refine ⟨mapMatrix (fun u => 2 * u - 1) (r.randMat nc nf).1, (r.randMat nc nf).2,
      ?_, ?_, ?_, ?_⟩
    · unfold feedforwardStep
      rw [if_pos hk]
    · simp [mapMatrix, RandomState.randMat]
    · intro row hrow
      simp only [mapMatrix, RandomState.randMat, List.mem_map] at hrow
      obtain ⟨a, ha, rfl⟩ := hrow
      obtain ⟨t, _, rfl⟩ := ha
      simp
    · intro row hrow x hx
      simp only [mapMatrix, RandomState.randMat, List.mem_map] at hrow
      obtain ⟨a, ha, rfl⟩ := hrow
      obtain ⟨t, _, rfl⟩ := ha
      simp only [List.mem_map] at hx
      obtain ⟨u, hu, rfl⟩ := hx
      obtain ⟨j, _, rfl⟩ := hu
      exact ⟨(hubound _).1, (hubound _).2.1⟩
  · -- sparse branch
    intro k hk hk1 hknf hlt
    have hne : cfg.k_in ≠ -1 := by rw [hk]; omega
    have hge : 0 ≤ (nc : Int) * cfg.k_in := by rw [hk]; positivity
    have hw : int32wrap ((nc : Int) * cfg.k_in) = (nc : Int) * cfg.k_in :=
      int32wrap_eq _ hge (by rw [hk]; exact hlt)
    have hnn : ¬ (int32wrap ((nc : Int) * cfg.k_in) < 0) := by rw [hw]; omega
    have htn : (int32wrap ((nc : Int) * cfg.k_in)).toNat = nc * k := by rw [hw, hk]; omega
    have hkt : cfg.k_in.toNat = k := by rw [hk]; omega
    -- reduce the sparse branch of feedforwardStep
    have hstep : feedforwardStep cfg nc nf r =
        .ok (.sparse (cscToDense nc nf
            (ffRowsAux nf k nc 0 { r with uidx := r.uidx + nc * k }).1
            (((List.range (nc * k)).map (fun s => r.uni (r.uidx + s))).map
              (fun u => 2 * u - 1))),
          (ffRowsAux nf k nc 0 { r with uidx := r.uidx + nc * k }).2) := by
      unfold feedforwardStep
      rw [if_neg hne, if_neg hnn, htn, hkt]
      rfl
    have hij : (ffRowsAux nf k nc 0 { r with uidx := r.uidx + nc * k }).1 =
        (List.range nc).flatMap
          (fun t => (((r.perm (r.pidx + t) nf).take k)).map (fun c => (t, c))) := by
      rw [ffRowsAux_fst]
      simp
    have hP : ∀ t, ((r.perm (r.pidx + t) nf).take k).length = k := by
      intro t
      rw [List.length_take, (hwf.perm_perm (r.pidx + t) nf).length_eq, List.length_range]
      omega
    have hnd : ∀ t, ((r.perm (r.pidx + t) nf).take k).Nodup := by
      intro t
      exact (List.take_sublist k _).nodup
        (((hwf.perm_perm (r.pidx + t) nf).nodup_iff).mpr (List.nodup_range nf))
    have hsub : ∀ t, ∀ j ∈ (r.perm (r.pidx + t) nf).take k, j < nf := by
      intro t j hj
      have hj2 : j ∈ r.perm (r.pidx + t) nf := List.mem_of_mem_take hj
      have := (hwf.perm_perm (r.pidx + t) nf).mem_iff.mp hj2
      exact List.mem_range.mp this
    have hdlen : (((List.range (nc * k)).map (fun s => r.uni (r.uidx + s))).map
        (fun u => 2 * u - 1)).length = nc * k := by simp
    have hvals : ∀ v ∈ ((List.range (nc * k)).map (fun s => r.uni (r.uidx + s))).map
        (fun u => 2 * u - 1), -1 ≤ v ∧ v < 1 ∧ v ≠ 0 := by
      intro v hv
      simp only [List.mem_map] at hv
      obtain ⟨u, hu, rfl⟩ := hv
      obtain ⟨s, _, rfl⟩ := hu
      exact hubound _
    rw [hstep, hij]
    refine ⟨_, _, rfl, by simp [cscToDense], ?_, ?_⟩
    · intro row hrow
      simp only [cscToDense, List.mem_map] at hrow
      obtain ⟨j, _, rfl⟩ := hrow
      simp
    · intro i hi
      obtain ⟨h1, h2, h3, h4⟩ := cscRow_spec _ k nc nf _ i hi hP hnd hsub hdlen hvals
      exact ⟨h2, hnd i, hsub i, hP i, h3, h4⟩

/-- Sparse configuration (k_in = 2) for the C7 witness. -/
def cfgC7 : Config := ⟨2, true, 1, 2, 0, "tanh", 0, 2, false, none⟩

/-- C7 witness: the sparse conjunct of the theorem evaluated at `k_in = 2`,
`n_components = 2`, `n_features = 3` and the concrete stream `rngW`. -/
theorem C7_feedforward_generation_witness :
    ∃ M r', feedforwardStep cfgC7 2 3 rngW = .ok (.sparse M, r') ∧
      M.length = 2 ∧ (∀ row ∈ M, row.length = 3) ∧
      (∀ i, i < 2 →
        countNonzero (M.getD i []) = 2 ∧
        ((rngW.perm (rngW.pidx + i) 3).take 2).Nodup ∧
        (∀ j ∈ (rngW.perm (rngW.pidx + i) 3).take 2, j < 3) ∧
        ((rngW.perm (rngW.pidx + i) 3).take 2).length = 2 ∧
        (∀ j, j < 3 →
          (((M.getD i []).getD j 0 ≠ 0) ↔ j ∈ (rngW.perm (rngW.pidx + i) 3).take 2)) ∧
        (∀ j, j < 3 → -1 ≤ (M.getD i []).getD j 0 ∧ (M.getD i []).getD j 0 < 1)) :=
  (C7_feedforward_generation cfgC7 2 3 rngW rngW_wf (fun t => by norm_num [rngW])).2 2 rfl
    (by omega) (by omega) (by omega)
